import Mathlib

/-!
# Verification of the save-slot persistence core (`src/rust/src/api/simple.rs`)

Shallow embedding of the repository's save-game persistence layer.  The Rust
code stores a catalog of save slots in a metadata SQLite database and the
gameplay payload of each slot in that slot's own SQLite file.  The embedding
replaces the file system and the SQLite engine by explicit state:

* `World` models the on-disk state: the set of created directories, the
  content of every catalog (metadata) database file, the content of every
  per-slot database file, and the UUID generator's position.
* SQL tables become Lean lists; a `save_slots` table is a `List
  SaveSlotMetadata`, the per-slot `player_stats`/`inventory` tables live in
  `SlotDb`.
* Timestamps are modelled as `Nat`.  The Rust code writes them as
  "YYYY-MM-DD HH:MM:SS" UTC strings both from `create_slot`
  (`Utc::now().format("%Y-%m-%d %H:%M:%S")`, whose source comment notes it
  matches SQLite's `DEFAULT CURRENT_TIMESTAMP` format) and from `load_slot`
  (SQL `CURRENT_TIMESTAMP`); on that common zero-padded format the
  lexicographic order SQLite uses for `ORDER BY last_played DESC` agrees
  with chronological order, so a single `Nat` clock is a faithful model.
* `Uuid::new_v4()` is modelled by an external generator `gen : Nat → String`
  applied to a counter stored in the `World`; the spec's global-uniqueness
  assumption becomes an injectivity hypothesis on `gen`.
* Effects that can only fail for environmental reasons (directory creation,
  opening a database file) are modelled as succeeding; the one place where
  the claims quantify over mid-operation failures — the save transaction —
  takes an explicit failure-injection oracle `failAt`.
-/

namespace SaveCore

/-! ## Association lists: files keyed by path, rows keyed by id -/

/-- Lookup in an association list keyed by `String` (first match wins). -/
def lookupA {α : Type} (k : String) : List (String × α) → Option α
  | [] => none
  | (k', v) :: rest => if k' = k then some v else lookupA k rest

/-- Replace the first binding of `k` (or append one) in an association list. -/
def setA {α : Type} (k : String) (v : α) : List (String × α) → List (String × α)
  | [] => [(k, v)]
  | (k', v') :: rest => if k' = k then (k, v) :: rest else (k', v') :: setA k v rest

theorem lookupA_setA_self {α : Type} (k : String) (v : α) (l : List (String × α)) :
    lookupA k (setA k v l) = some v := by
  induction l with
  | nil => simp [setA, lookupA]
  | cons hd tl ih =>
    obtain ⟨k', v'⟩ := hd
    by_cases h : k' = k
    · simp [setA, lookupA, h]
    · simp [setA, lookupA, h, ih]

theorem setA_setA {α : Type} (k : String) (v v' : α) (l : List (String × α)) :
    setA k v (setA k v' l) = setA k v l := by
  induction l with
  | nil => simp [setA]
  | cons hd tl ih =>
    obtain ⟨k', v''⟩ := hd
    by_cases h : k' = k
    · simp [setA, h]
    · simp [setA, h, ih]

theorem setA_eq_of_lookupA {α : Type} (k : String) (v : α) (l : List (String × α))
    (h : lookupA k l = some v) : setA k v l = l := by
  induction l with
  | nil => simp [lookupA] at h
  | cons hd tl ih =>
    obtain ⟨k', v'⟩ := hd
    by_cases hk : k' = k
    · simp [lookupA, hk] at h
      simp [setA, hk, h]
    · simp [lookupA, hk] at h
      simp [setA, hk, ih h]

/-! ## Data model -/

/-- One catalog row of the `save_slots` table (struct `SaveSlotMetadata`). -/
structure SaveSlotMetadata where
  id : String
  name : String
  last_played : Nat
  file_path : String
deriving DecidableEq, Repr

/-- Transient gameplay payload (struct `PlayerData`). -/
structure PlayerData where
  health : Int
  experience : Int
  inventory : List String
deriving DecidableEq, Repr

/-- Content of one slot's own database file.  `schemaVersion = 0` means the
`SLOT_DB_MIGRATIONS` migration has not been applied yet, i.e. the
`player_stats` and `inventory` tables do not exist; `stats` is the singleton
`player_stats` row `(health, experience)` and `inventory` holds the
`(position, item)` rows with `position` as primary key. -/
structure SlotDb where
  schemaVersion : Nat
  stats : Option (Int × Int)
  inventory : List (Nat × String)
deriving DecidableEq, Repr

/-- A just-created (empty) database file, before any migration. -/
def SlotDb.fresh : SlotDb := ⟨0, none, []⟩

/-- `SLOT_DB_MIGRATIONS.to_latest`: the single migration creates the two
(empty) tables and bumps the tracked version; repeated calls are no-ops. -/
def toLatest (db : SlotDb) : SlotDb :=
  if db.schemaVersion = 0 then { db with schemaVersion := 1 } else db

/-- Struct `SaveManager`: storage directory, catalog path and the at-most-one
open slot connection (modelled by the path of the file it is open on). -/
structure SaveManager where
  saves_dir : String
  metadata_db_path : String
  active_connection : Option String
deriving DecidableEq, Repr

/-- On-disk state plus the UUID generator position.  `metaDbs` maps a path to
the content of a metadata database file; `none` content means the file exists
but its `save_slots` table has not been created. -/
structure World where
  dirs : List String
  metaDbs : List (String × Option (List SaveSlotMetadata))
  slotFiles : List (String × SlotDb)
  uuidCounter : Nat
deriving DecidableEq, Repr

/-- Errors of the core (enum `SaveManagerError`); payloads are the message
text where the Rust payload is an underlying error value. -/
inductive SaveManagerError where
  | Io (msg : String)
  | Database (msg : String)
  | SlotNotFound (id : String)
  | NoActiveSlot
  | Migration (msg : String)
deriving DecidableEq, Repr

/-- The `Display` implementation for `SaveManagerError`. -/
def SaveManagerError.message : SaveManagerError → String
  | .Io m => "I/O error: " ++ m
  | .Database m => "database error: " ++ m
  | .SlotNotFound id => "save slot with id \x27" ++ id ++ "\x27 does not exist"
  | .NoActiveSlot => "no save slot is currently loaded"
  | .Migration m => "migration error: " ++ m

/-! ## Path constants (lines 14-16 of the source) -/

def APP_NAME : String := "my_app"

def SAVES_SUBDIRECTORY : String := "saves"

def METADATA_DB_FILE : String := "metadata.db"

def appDirOf (base : String) : String := base ++ "/" ++ APP_NAME

def savesDirOf (base : String) : String := appDirOf base ++ "/" ++ SAVES_SUBDIRECTORY

def metadataPathOf (base : String) : String := savesDirOf base ++ "/" ++ METADATA_DB_FILE

/-! ## Initialization -/

/-- `fs::create_dir_all`: idempotent directory creation. -/
def createDirAll (d : String) (dirs : List String) : List String :=
  if d ∈ dirs then dirs else d :: dirs

/-- `initialize_metadata_db`: open (creating the file if absent) and
`CREATE TABLE IF NOT EXISTS save_slots` — existing rows are untouched. -/
def initialize_metadata_db (path : String) (w : World) : World :=
  match lookupA path w.metaDbs with
  | some (some _) => w
  | _ => { w with metaDbs := setA path (some []) w.metaDbs }

/-- `SaveManager::initialize`: derive the directory layout, create it, and
initialize the catalog.  Directory creation and catalog opening fail only for
environmental reasons, which the model does not inject, so the result is
always `ok`. -/
def SaveManager.initializeManager (base : String) (w : World) :
    Except SaveManagerError SaveManager × World :=
  let saves_dir := savesDirOf base
  let w := { w with dirs := createDirAll saves_dir w.dirs }
  let metadata_db_path := metadataPathOf base
  let w := initialize_metadata_db metadata_db_path w
  (.ok { saves_dir := saves_dir, metadata_db_path := metadata_db_path,
         active_connection := none }, w)

/-! ## Catalog operations -/

/-- `rows.any (row.id = slot_id)` — the UNIQUE-constraint check on insert. -/
def hasRowId (id : String) : List SaveSlotMetadata → Bool
  | [] => false
  | r :: rs => if r.id = id then true else hasRowId id rs

/-- `SELECT ... WHERE id = ?1` on the `save_slots` table (ids are unique, the
first match is the row). -/
def findRow (id : String) : List SaveSlotMetadata → Option SaveSlotMetadata
  | [] => none
  | r :: rs => if r.id = id then some r else findRow id rs

/-- `SaveManager::create_slot`: draw a fresh identifier from the generator,
derive the slot file path, and insert one catalog row.  The slot's own data
file is not touched. -/
def SaveManager.create_slot (mgr : SaveManager) (gen : Nat → String)
    (display_name : String) (now : Nat) (w : World) :
    Except SaveManagerError SaveSlotMetadata × World :=
  let slot_id := gen w.uuidCounter
  let w := { w with uuidCounter := w.uuidCounter + 1 }
  let slot_file_path := mgr.saves_dir ++ "/" ++ slot_id ++ ".db"
  match lookupA mgr.metadata_db_path w.metaDbs with
  | none =>
    (.error (.Database "no such table: save_slots"),
     { w with metaDbs := setA mgr.metadata_db_path none w.metaDbs })
  | some none => (.error (.Database "no such table: save_slots"), w)
  | some (some rows) =>
    if hasRowId slot_id rows then
      (.error (.Database "UNIQUE constraint failed: save_slots.id"), w)
    else
      let rows' := rows ++ [⟨slot_id, display_name, now, slot_file_path⟩]
      (.ok ⟨slot_id, display_name, now, slot_file_path⟩,
       { w with metaDbs := setA mgr.metadata_db_path (some rows') w.metaDbs })

/-- The relation of `ORDER BY last_played DESC`. -/
def lpDesc (a b : SaveSlotMetadata) : Prop := b.last_played ≤ a.last_played

instance : DecidableRel lpDesc := fun a b => Nat.decLe b.last_played a.last_played

instance : IsTotal SaveSlotMetadata lpDesc :=
  ⟨fun a b => (Nat.le_total b.last_played a.last_played).imp id id⟩

instance : IsTrans SaveSlotMetadata lpDesc :=
  ⟨fun _ _ _ hab hbc => Nat.le_trans hbc hab⟩

/-- The row order produced by `ORDER BY last_played DESC`. -/
def sortSlotsDesc (rows : List SaveSlotMetadata) : List SaveSlotMetadata :=
  List.insertionSort lpDesc rows

/-- `SaveManager::all_slots`: read every catalog row, most recently played
first. -/
def SaveManager.all_slots (mgr : SaveManager) (w : World) :
    Except SaveManagerError (List SaveSlotMetadata) × World :=
  match lookupA mgr.metadata_db_path w.metaDbs with
  | none =>
    (.error (.Database "no such table: save_slots"),
     { w with metaDbs := setA mgr.metadata_db_path none w.metaDbs })
  | some none => (.error (.Database "no such table: save_slots"), w)
  | some (some rows) => (.ok (sortSlotsDesc rows), w)

/-- `SaveManager::close_active_connection` (the `Option` drop closes the
underlying handle). -/
def SaveManager.close_active_connection (mgr : SaveManager) : SaveManager :=
  if mgr.active_connection.isSome then { mgr with active_connection := none } else mgr

theorem close_active_connection_eq (mgr : SaveManager) :
    mgr.close_active_connection = { mgr with active_connection := none } := by
  cases mgr with
  | mk s m a => cases a <;> simp [SaveManager.close_active_connection]

/-- `SaveManager::load_slot`: close any active connection, look the slot up in
the catalog, open (creating the file if absent) and migrate its data file,
stamp `last_played`, and only then install the new connection. -/
def SaveManager.load_slot (mgr : SaveManager) (slot_id : String) (now : Nat) (w : World) :
    Except SaveManagerError Unit × SaveManager × World :=
  let mgr := mgr.close_active_connection
  match lookupA mgr.metadata_db_path w.metaDbs with
  | none =>
    (.error (.Database "no such table: save_slots"), mgr,
     { w with metaDbs := setA mgr.metadata_db_path none w.metaDbs })
  | some none => (.error (.Database "no such table: save_slots"), mgr, w)
  | some (some rows) =>
    match findRow slot_id rows with
    | none => (.error (.SlotNotFound slot_id), mgr, w)
    | some row =>
      let slotDb := (lookupA row.file_path w.slotFiles).getD SlotDb.fresh
      let migrated := toLatest slotDb
      let w := { w with slotFiles := setA row.file_path migrated w.slotFiles }
      let rows' := rows.map fun r =>
        if r.id = slot_id then { r with last_played := now } else r
      let w := { w with metaDbs := setA mgr.metadata_db_path (some rows') w.metaDbs }
      (.ok (), { mgr with active_connection := some row.file_path }, w)

/-! ## The save transaction -/

/-- The stats upsert (`INSERT ... ON CONFLICT(id) DO UPDATE`). -/
def upsertStats (health experience : Int) (db : SlotDb) :
    Except SaveManagerError SlotDb :=
  if db.schemaVersion = 0 then .error (.Database "no such table: player_stats")
  else .ok { db with stats := some (health, experience) }

/-- `DELETE FROM inventory`. -/
def deleteInventory (db : SlotDb) : Except SaveManagerError SlotDb :=
  if db.schemaVersion = 0 then .error (.Database "no such table: inventory")
  else .ok { db with inventory := [] }

/-- Primary-key check of `INSERT INTO inventory (position, item)`. -/
def hasPos (p : Nat) : List (Nat × String) → Bool
  | [] => false
  | q :: qs => if q.1 = p then true else hasPos p qs

/-- `INSERT INTO inventory (position, item) VALUES (?1, ?2)`. -/
def insertInventory (pos : Nat) (item : String) (db : SlotDb) :
    Except SaveManagerError SlotDb :=
  if db.schemaVersion = 0 then .error (.Database "no such table: inventory")
  else if hasPos pos db.inventory then
    .error (.Database "UNIQUE constraint failed: inventory.position")
  else .ok { db with inventory := db.inventory ++ [(pos, item)] }

/-- `.iter().enumerate()` starting at `k`. -/
def enumerateFrom (k : Nat) : List String → List (Nat × String)
  | [] => []
  | x :: xs => (k, x) :: enumerateFrom (k + 1) xs

/-- The statements executed inside the `save_player_data` transaction, in
source order: upsert the stats row, clear the inventory, then insert each
item at its enumerate position. -/
def saveStmts (data : PlayerData) : List (SlotDb → Except SaveManagerError SlotDb) :=
  upsertStats data.health data.experience :: deleteInventory ::
    (enumerateFrom 0 data.inventory).map fun q => insertInventory q.1 q.2

/-- Run the statements of a transaction against the working database state.
`failAt = some i` injects an environmental failure (e.g. disk I/O) at
statement index `i`. -/
def runStmts (failAt : Option Nat) :
    Nat → List (SlotDb → Except SaveManagerError SlotDb) → SlotDb →
    Except SaveManagerError SlotDb
  | _, [], db => .ok db
  | i, s :: rest, db =>
    if failAt = some i then .error (.Database "disk I/O error")
    else
      match s db with
      | .error e => .error e
      | .ok db' => runStmts failAt (i + 1) rest db'

/-- The whole transaction: index 0 is `connection.transaction()` (BEGIN),
indices 1.. are the statements, and the index after the last statement is
`transaction.commit()`.  An error anywhere drops the `Transaction` value,
which rolls back, so only a fully-committed state is ever returned. -/
def runSave (data : PlayerData) (failAt : Option Nat) (db : SlotDb) :
    Except SaveManagerError SlotDb :=
  if failAt = some 0 then .error (.Database "disk I/O error")
  else
    match runStmts failAt 1 (saveStmts data) db with
    | .error e => .error e
    | .ok db' =>
      if failAt = some (1 + (saveStmts data).length) then
        .error (.Database "disk I/O error")
      else .ok db'

/-- `SaveManager::save_player_data`: requires an active connection, then runs
the transaction against that connection's file; the file content changes only
if the transaction commits. -/
def SaveManager.save_player_data (mgr : SaveManager) (data : PlayerData)
    (failAt : Option Nat) (w : World) :
    Except SaveManagerError Unit × SaveManager × World :=
  match mgr.active_connection with
  | none => (.error .NoActiveSlot, mgr, w)
  | some path =>
    let db := (lookupA path w.slotFiles).getD SlotDb.fresh
    match runSave data failAt db with
    | .ok db' => (.ok (), mgr, { w with slotFiles := setA path db' w.slotFiles })
    | .error e => (.error e, mgr, w)

/-- The relation of `ORDER BY position` on inventory rows. -/
def posAsc (a b : Nat × String) : Prop := a.1 ≤ b.1

instance : DecidableRel posAsc := fun a b => Nat.decLe a.1 b.1

instance : IsTotal (Nat × String) posAsc := ⟨fun a b => Nat.le_total a.1 b.1⟩

instance : IsTrans (Nat × String) posAsc := ⟨fun _ _ _ => Nat.le_trans⟩

/-- Modelled from the spec: the repository has no gameplay read-back
operation (only `save_player_data` exists); the spec's round-trip property
speaks of "a fresh read of that slot's stats and inventory" — reading the
singleton `player_stats` row and the `inventory` table ordered by
`position`. -/
def readPlayerData (db : SlotDb) : Option PlayerData :=
  db.stats.map fun s =>
    ⟨s.1, s.2, (List.insertionSort posAsc db.inventory).map Prod.snd⟩

/-! ## Process-wide registry and public (boundary) functions

`APP_DOCUMENTS_DIR` and `SAVE_MANAGER` are the two global cells (an `RwLock`
and a `Mutex`); each can be poisoned by a panic in a previous guard holder,
which is an input of the model. -/

/-- Health of a lock (`Ok` vs `Err(PoisonError)` from `lock`/`read`/`write`). -/
inductive LockState where
  | healthy
  | poisoned
deriving DecidableEq, Repr

/-- The two `static` cells of the module. -/
structure Globals where
  appDocumentsDir : Option String
  appDirLock : LockState
  saveManager : Option SaveManager
  saveManagerLock : LockState
deriving DecidableEq, Repr

/-- Result of one boundary call: a returned value, or a process panic
(`expect` on a poisoned lock). -/
inductive Outcome (α : Type) where
  | ret (val : α)
  | panicked
deriving Repr

/-- `pub fn init_system`: build the manager first (its directory and catalog
side effects happen before the lock is taken), then install it under the
`SAVE_MANAGER` lock; a poisoned lock is surfaced as an error string. -/
def init_system (base : String) (g : Globals) (w : World) :
    Outcome (Except String Unit) × Globals × World :=
  match SaveManager.initializeManager base w with
  | (.error e, w') =>
    (.ret (.error ("init_system failed: " ++ e.message)), g, w')
  | (.ok m, w') =>
    match g.saveManagerLock with
    | .poisoned => (.ret (.error "SaveManager lock poisoned"), g, w')
    | .healthy => (.ret (.ok ()), { g with saveManager := some m }, w')

/-- `pub fn create_new_slot` (via `with_save_manager`). -/
def create_new_slot (display_name : String) (gen : Nat → String) (now : Nat)
    (g : Globals) (w : World) :
    Outcome (Except String SaveSlotMetadata) × Globals × World :=
  match g.saveManagerLock with
  | .poisoned => (.ret (.error "SaveManager lock poisoned"), g, w)
  | .healthy =>
    match g.saveManager with
    | none => (.ret (.error "SaveManager has not been initialized"), g, w)
    | some m =>
      match m.create_slot gen display_name now w with
      | (r, w') => (.ret (r.mapError SaveManagerError.message), g, w')

/-- `pub fn get_all_slots` (via `with_save_manager`). -/
def get_all_slots (g : Globals) (w : World) :
    Outcome (Except String (List SaveSlotMetadata)) × Globals × World :=
  match g.saveManagerLock with
  | .poisoned => (.ret (.error "SaveManager lock poisoned"), g, w)
  | .healthy =>
    match g.saveManager with
    | none => (.ret (.error "SaveManager has not been initialized"), g, w)
    | some m =>
      match m.all_slots w with
      | (r, w') => (.ret (r.mapError SaveManagerError.message), g, w')

/-- `pub fn load_slot` (via `with_save_manager_mut`). -/
def load_slot (slot_id : String) (now : Nat) (g : Globals) (w : World) :
    Outcome (Except String Unit) × Globals × World :=
  match g.saveManagerLock with
  | .poisoned => (.ret (.error "SaveManager lock poisoned"), g, w)
  | .healthy =>
    match g.saveManager with
    | none => (.ret (.error "SaveManager has not been initialized"), g, w)
    | some m =>
      match SaveManager.load_slot m slot_id now w with
      | (r, m', w') =>
        (.ret (r.mapError SaveManagerError.message),
         { g with saveManager := some m' }, w')

/-- `pub fn save_player_data` (via `with_save_manager_mut`). -/
def save_player_data (data : PlayerData) (failAt : Option Nat)
    (g : Globals) (w : World) :
    Outcome (Except String Unit) × Globals × World :=
  match g.saveManagerLock with
  | .poisoned => (.ret (.error "SaveManager lock poisoned"), g, w)
  | .healthy =>
    match g.saveManager with
    | none => (.ret (.error "SaveManager has not been initialized"), g, w)
    | some m =>
      match SaveManager.save_player_data m data failAt w with
      | (r, m', w') =>
        (.ret (r.mapError SaveManagerError.message),
         { g with saveManager := some m' }, w')

/-- `pub fn set_application_documents_directory`: `write().expect(..)` —
panics when the `APP_DOCUMENTS_DIR` lock is poisoned. -/
def set_application_documents_directory (dir : String) (g : Globals) :
    Outcome Unit × Globals :=
  match g.appDirLock with
  | .poisoned => (.panicked, g)
  | .healthy => (.ret (), { g with appDocumentsDir := some dir })

/-- `pub fn debug_application_documents_directory`: `read().expect(..)` —
panics when the `APP_DOCUMENTS_DIR` lock is poisoned. -/
def debug_application_documents_directory (g : Globals) :
    Outcome (Option String) × Globals :=
  match g.appDirLock with
  | .poisoned => (.panicked, g)
  | .healthy => (.ret g.appDocumentsDir, g)

/-! ## Helper lemmas -/

theorem findRow_eq_none (id : String) (rows : List SaveSlotMetadata)
    (h : ∀ r ∈ rows, r.id ≠ id) : findRow id rows = none := by
  induction rows with
  | nil => rfl
  | cons r rs ih =>
    have hr : r.id ≠ id := h r (List.mem_cons_self r rs)
    simp only [findRow, if_neg hr]
    exact ih fun x hx => h x (List.mem_cons_of_mem r hx)

theorem findRow_some (id : String) (rows : List SaveSlotMetadata)
    (row : SaveSlotMetadata) (h : findRow id rows = some row) :
    row ∈ rows ∧ row.id = id := by
  induction rows with
  | nil => simp [findRow] at h
  | cons r rs ih =>
    by_cases hr : r.id = id
    · simp only [findRow, if_pos hr] at h
      obtain rfl := Option.some.inj h
      exact ⟨List.mem_cons_self _ _, hr⟩
    · simp only [findRow, if_neg hr] at h
      obtain ⟨hm, hi⟩ := ih h
      exact ⟨List.mem_cons_of_mem r hm, hi⟩

theorem hasRowId_eq_false (id : String) (rows : List SaveSlotMetadata)
    (h : ∀ r ∈ rows, r.id ≠ id) : hasRowId id rows = false := by
  induction rows with
  | nil => rfl
  | cons r rs ih =>
    have hr : r.id ≠ id := h r (List.mem_cons_self r rs)
    simp only [hasRowId, if_neg hr]
    exact ih fun x hx => h x (List.mem_cons_of_mem r hx)

theorem hasPos_eq_false (p : Nat) (inv : List (Nat × String))
    (h : ∀ q ∈ inv, q.1 ≠ p) : hasPos p inv = false := by
  induction inv with
  | nil => rfl
  | cons q qs ih =>
    have hq : q.1 ≠ p := h q (List.mem_cons_self q qs)
    simp only [hasPos, if_neg hq]
    exact ih fun x hx => h x (List.mem_cons_of_mem q hx)

theorem toLatest_schemaVersion_ne_zero (db : SlotDb) :
    (toLatest db).schemaVersion ≠ 0 := by
  unfold toLatest
  by_cases h : db.schemaVersion = 0 <;> simp [h]

theorem enumerateFrom_map_snd (k : Nat) (l : List String) :
    (enumerateFrom k l).map Prod.snd = l := by
  induction l generalizing k with
  | nil => rfl
  | cons x xs ih => simp [enumerateFrom, ih]

theorem mem_enumerateFrom_fst (k : Nat) (l : List String) (q : Nat × String)
    (h : q ∈ enumerateFrom k l) : k ≤ q.1 := by
  induction l generalizing k with
  | nil => simp [enumerateFrom] at h
  | cons x xs ih =>
    simp only [enumerateFrom, List.mem_cons] at h
    rcases h with h | h
    · subst h; exact Nat.le_refl k
    · exact Nat.le_of_succ_le (ih (k + 1) h)

theorem sorted_enumerateFrom (k : Nat) (l : List String) :
    List.Sorted posAsc (enumerateFrom k l) := by
  induction l generalizing k with
  | nil => exact List.sorted_nil
  | cons x xs ih =>
    refine List.sorted_cons.mpr ⟨?_, ih (k + 1)⟩
    intro q hq
    exact Nat.le_of_succ_le (mem_enumerateFrom_fst (k + 1) xs q hq)

/-! ## C3, C4, C5 -/

/-- C3: `load_slot` on an identifier with no matching catalog row fails with
the `SlotNotFound` variant (not a generic `Database` error), leaves the
manager with no active slot (a previously active connection is closed, not
restored), and changes nothing on disk. -/
theorem load_slot_missing_id (mgr : SaveManager) (slot_id : String) (now : Nat)
    (w : World) (rows : List SaveSlotMetadata)
    (hcat : lookupA mgr.metadata_db_path w.metaDbs = some (some rows))
    (hmiss : ∀ r ∈ rows, r.id ≠ slot_id) :
    SaveManager.load_slot mgr slot_id now w =
      (.error (.SlotNotFound slot_id), { mgr with active_connection := none }, w) := by
  unfold SaveManager.load_slot
  rw [close_active_connection_eq]
  simp only [hcat, findRow_eq_none slot_id rows hmiss]

/-- C3 witness: a manager with an active connection and a catalog without the
requested id ends with no active slot and a `SlotNotFound` error. -/
theorem load_slot_missing_id_witness :
    SaveManager.load_slot ⟨"d", "d/metadata.db", some "d/old.db"⟩ "ghost" 7
        ⟨["d"], [("d/metadata.db", some [⟨"a", "Run 1", 5, "d/a.db"⟩])], [], 0⟩ =
      (.error (.SlotNotFound "ghost"), ⟨"d", "d/metadata.db", none⟩,
       ⟨["d"], [("d/metadata.db", some [⟨"a", "Run 1", 5, "d/a.db"⟩])], [], 0⟩) :=
  load_slot_missing_id ⟨"d", "d/metadata.db", some "d/old.db"⟩ "ghost" 7
    ⟨["d"], [("d/metadata.db", some [⟨"a", "Run 1", 5, "d/a.db"⟩])], [], 0⟩
    [⟨"a", "Run 1", 5, "d/a.db"⟩] (by decide) (by decide)

/-- C4: `save_player_data` with no active connection fails with the
`NoActiveSlot` variant and performs no write: the world and the manager are
returned unchanged; at the boundary the same call surfaces the flattened
message and leaves the registry unchanged as well. -/
theorem save_player_data_no_active_slot (mgr : SaveManager) (data : PlayerData)
    (failAt : Option Nat) (w : World) (g : Globals)
    (hnone : mgr.active_connection = none) :
    SaveManager.save_player_data mgr data failAt w = (.error .NoActiveSlot, mgr, w) ∧
    save_player_data data failAt
        { g with saveManager := some mgr, saveManagerLock := .healthy } w =
      (.ret (.error "no save slot is currently loaded"),
       { g with saveManager := some mgr, saveManagerLock := .healthy }, w) := by
  have h1 : SaveManager.save_player_data mgr data failAt w =
      (.error .NoActiveSlot, mgr, w) := by
    unfold SaveManager.save_player_data
    rw [hnone]
  refine ⟨h1, ?_⟩
  unfold save_player_data
  simp [h1, Except.mapError, SaveManagerError.message]

/-- C4 witness: saving with nothing loaded fails and writes nothing. -/
theorem save_player_data_no_active_slot_witness :
    SaveManager.save_player_data ⟨"d", "d/metadata.db", none⟩ ⟨80, 120, ["sword"]⟩
        none ⟨[], [], [], 0⟩ =
      (.error .NoActiveSlot, ⟨"d", "d/metadata.db", none⟩, ⟨[], [], [], 0⟩) :=
  (save_player_data_no_active_slot ⟨"d", "d/metadata.db", none⟩ ⟨80, 120, ["sword"]⟩
    none ⟨[], [], [], 0⟩ ⟨none, .healthy, none, .healthy⟩ rfl).1

/-- C5: `all_slots` returns every catalog row, ordered by `last_played`
descending, and an empty catalog yields the empty sequence, not an error. -/
theorem all_slots_ordered (mgr : SaveManager) (w : World)
    (rows : List SaveSlotMetadata)
    (hcat : lookupA mgr.metadata_db_path w.metaDbs = some (some rows)) :
    SaveManager.all_slots mgr w = (.ok (sortSlotsDesc rows), w) ∧
    (sortSlotsDesc rows).Perm rows ∧
    List.Sorted lpDesc (sortSlotsDesc rows) ∧
    (rows = [] → sortSlotsDesc rows = []) := by
  refine ⟨?_, List.perm_insertionSort lpDesc rows,
    List.sorted_insertionSort lpDesc rows, ?_⟩
  · unfold SaveManager.all_slots
    rw [hcat]
  · intro h; subst h; rfl

/-- C5 witness: a two-row catalog comes back sorted most-recent first, and
the empty catalog comes back empty. -/
theorem all_slots_ordered_witness :
    SaveManager.all_slots ⟨"d", "d/metadata.db", none⟩
        ⟨["d"], [("d/metadata.db",
          some [⟨"a", "Run 1", 5, "d/a.db"⟩, ⟨"b", "Run 2", 9, "d/b.db"⟩])], [], 0⟩ =
      (.ok [⟨"b", "Run 2", 9, "d/b.db"⟩, ⟨"a", "Run 1", 5, "d/a.db"⟩],
       ⟨["d"], [("d/metadata.db",
          some [⟨"a", "Run 1", 5, "d/a.db"⟩, ⟨"b", "Run 2", 9, "d/b.db"⟩])], [], 0⟩) := by
  have h := (all_slots_ordered ⟨"d", "d/metadata.db", none⟩
    ⟨["d"], [("d/metadata.db",
      some [⟨"a", "Run 1", 5, "d/a.db"⟩, ⟨"b", "Run 2", 9, "d/b.db"⟩])], [], 0⟩
    [⟨"a", "Run 1", 5, "d/a.db"⟩, ⟨"b", "Run 2", 9, "d/b.db"⟩] (by decide)).1
  rw [h]
  rfl

/-! ## The save transaction: characterization lemmas -/

/-- One successful inventory insert appends exactly one row. -/
theorem insertInventory_ok_elim (pos : Nat) (item : String) (db db1 : SlotDb)
    (h : insertInventory pos item db = .ok db1) :
    db1 = { db with inventory := db.inventory ++ [(pos, item)] } := by
  unfold insertInventory at h
  split at h
  · exact Except.noConfusion h
  · split at h
    · exact Except.noConfusion h
    · exact (Except.ok.inj h).symm

/-- If the run of the inventory inserts commits, the inserted rows are
exactly the enumerated items, appended in order. -/
theorem runStmts_inserts_ok (failAt : Option Nat) (l : List String) :
    ∀ (k i : Nat) (db db' : SlotDb),
    runStmts failAt i ((enumerateFrom k l).map fun q => insertInventory q.1 q.2) db =
      .ok db' →
    db' = { db with inventory := db.inventory ++ enumerateFrom k l } := by
  induction l with
  | nil =>
    intro k i db db' h
    simp only [enumerateFrom, List.map_nil, runStmts] at h
    cases h
    simp [enumerateFrom]
  | cons x xs ih =>
    intro k i db db' h
    simp only [enumerateFrom, List.map_cons, runStmts] at h
    split at h
    · exact Except.noConfusion h
    · cases hins : insertInventory k x db with
      | error e =>
        simp only [hins] at h
        exact Except.noConfusion h
      | ok db1 =>
        simp only [hins] at h
        obtain rfl := insertInventory_ok_elim k x db db1 hins
        have := ih (k + 1) (i + 1) _ db' h
        rw [this]
        simp [enumerateFrom]

/-- Without injected failures, the inventory inserts all succeed whenever the
tables exist and every present position is below the first inserted one. -/
theorem runStmts_inserts_success (l : List String) :
    ∀ (k i : Nat) (db : SlotDb), db.schemaVersion ≠ 0 →
    (∀ q ∈ db.inventory, q.1 < k) →
    runStmts none i ((enumerateFrom k l).map fun q => insertInventory q.1 q.2) db =
      .ok { db with inventory := db.inventory ++ enumerateFrom k l } := by
  induction l with
  | nil =>
    intro k i db hver hbound
    simp [enumerateFrom, runStmts]
  | cons x xs ih =>
    intro k i db hver hbound
    have hfree : hasPos k db.inventory = false :=
      hasPos_eq_false k db.inventory fun q hq => Nat.ne_of_lt (hbound q hq)
    have hins : insertInventory k x db =
        .ok { db with inventory := db.inventory ++ [(k, x)] } := by
      unfold insertInventory
      rw [if_neg hver, if_neg (by simp [hfree])]
    simp only [enumerateFrom, List.map_cons, runStmts]
    rw [if_neg (by simp)]
    simp only [hins]
    have hbound' : ∀ q ∈ (db.inventory ++ [(k, x)]), q.1 < k + 1 := by
      intro q hq
      simp only [List.mem_append, List.mem_singleton] at hq
      rcases hq with hq | hq
      · exact Nat.lt_succ_of_lt (hbound q hq)
      · subst hq; exact Nat.lt_succ_self k
    have := ih (k + 1) (i + 1) { db with inventory := db.inventory ++ [(k, x)] }
      hver hbound'
    rw [this]
    simp [enumerateFrom]

/-- A committed save transaction leaves exactly the fully-rewritten state:
the upserted stats row and the enumerated inventory. -/
theorem runSave_ok (data : PlayerData) (failAt : Option Nat) (db db' : SlotDb)
    (h : runSave data failAt db = .ok db') :
    db' = { db with stats := some (data.health, data.experience),
                    inventory := enumerateFrom 0 data.inventory } := by
  unfold runSave at h
  split at h
  · exact Except.noConfusion h
  · cases hs : runStmts failAt 1 (saveStmts data) db with
    | error e =>
      simp only [hs] at h
      exact Except.noConfusion h
    | ok db'' =>
      simp only [hs] at h
      split at h
      · exact Except.noConfusion h
      · obtain rfl := Except.ok.inj h
        simp only [saveStmts, runStmts] at hs
        split at hs
        · exact Except.noConfusion hs
        · cases hu : upsertStats data.health data.experience db with
          | error e =>
            simp only [hu] at hs
            exact Except.noConfusion hs
          | ok db1 =>
            simp only [hu] at hs
            split at hs
            · exact Except.noConfusion hs
            · cases hd : deleteInventory db1 with
              | error e =>
                simp only [hd] at hs
                exact Except.noConfusion hs
              | ok db2 =>
                simp only [hd] at hs
                have h3 := runStmts_inserts_ok failAt data.inventory 0 3 db2 db'' hs
                have hu' : db1 = { db with stats := some (data.health, data.experience) } := by
                  unfold upsertStats at hu
                  split at hu
                  · exact Except.noConfusion hu
                  · exact (Except.ok.inj hu).symm
                have hd' : db2 = { db1 with inventory := [] } := by
                  unfold deleteInventory at hd
                  split at hd
                  · exact Except.noConfusion hd
                  · exact (Except.ok.inj hd).symm
                subst hu' hd'
                rw [h3]
                simp

/-- Without injected failures a save transaction on a migrated slot database
always commits, producing the fully-rewritten state. -/
theorem runSave_success (data : PlayerData) (db : SlotDb)
    (hver : db.schemaVersion ≠ 0) :
    runSave data none db =
      .ok { db with stats := some (data.health, data.experience),
                    inventory := enumerateFrom 0 data.inventory } := by
  have hu : upsertStats data.health data.experience db =
      .ok { db with stats := some (data.health, data.experience) } := by
    unfold upsertStats
    rw [if_neg hver]
  have hd : deleteInventory { db with stats := some (data.health, data.experience) } =
      .ok { db with stats := some (data.health, data.experience), inventory := [] } := by
    unfold deleteInventory
    rw [if_neg hver]
  have h1 : runStmts none 1 (saveStmts data) db =
      .ok { db with stats := some (data.health, data.experience),
                    inventory := enumerateFrom 0 data.inventory } := by
    simp only [saveStmts, runStmts]
    rw [if_neg (by simp)]
    simp only [hu]
    rw [if_neg (by simp)]
    simp only [hd]
    have := runStmts_inserts_success data.inventory 0 3
      { db with stats := some (data.health, data.experience), inventory := [] }
      hver (by simp)
    rw [this]
    simp
  unfold runSave
  rw [if_neg (by simp)]
  simp only [h1]
  rw [if_neg (by simp)]

/-! ## C2 -/

/-- The composite effect of the three transaction steps on a slot database:
stats upserted, inventory deleted and rewritten at enumerate positions. -/
def fullWrite (data : PlayerData) (db : SlotDb) : SlotDb :=
  { db with stats := some (data.health, data.experience),
            inventory := enumerateFrom 0 data.inventory }

/-- C2: with an active connection, `save_player_data` is atomic: for every
input and every injected mid-operation failure, either the transaction
commits and the slot file holds exactly the upserted stats row and the
enumerated inventory (stats upsert, inventory delete, positioned inserts —
in that order inside one transaction), or it fails and the slot file is left
exactly as it was: there is no partially-rewritten state. -/
theorem save_player_data_atomic (mgr : SaveManager) (p : String)
    (data : PlayerData) (failAt : Option Nat) (w : World)
    (hactive : mgr.active_connection = some p) :
    (SaveManager.save_player_data mgr data failAt w).2.1 = mgr ∧
    (((SaveManager.save_player_data mgr data failAt w).1 = .ok () ∧
      (SaveManager.save_player_data mgr data failAt w).2.2 =
        { w with slotFiles := setA p (fullWrite data ((lookupA p w.slotFiles).getD SlotDb.fresh)) w.slotFiles }) ∨
     (∃ e, (SaveManager.save_player_data mgr data failAt w).1 = .error e ∧
        (SaveManager.save_player_data mgr data failAt w).2.2 = w)) := by
  unfold SaveManager.save_player_data
  rw [hactive]
  cases hr : runSave data failAt ((lookupA p w.slotFiles).getD SlotDb.fresh) with
  | error e =>
    refine ⟨?_, Or.inr ⟨e, ?_, ?_⟩⟩ <;> simp [hr]
  | ok db' =>
    have h2 := runSave_ok data failAt _ db' hr
    subst h2
    refine ⟨?_, Or.inl ⟨?_, ?_⟩⟩ <;> simp [hr, fullWrite]

/-- C2 witness: a concrete save on a migrated slot file commits fully. -/
theorem save_player_data_atomic_witness :
    (SaveManager.save_player_data ⟨"d", "d/metadata.db", some "d/a.db"⟩
        ⟨80, 120, ["sword", "potion"]⟩ none
        ⟨["d"], [], [("d/a.db", ⟨1, none, [(0, "old")]⟩)], 0⟩).2.1 =
      ⟨"d", "d/metadata.db", some "d/a.db"⟩ :=
  (save_player_data_atomic ⟨"d", "d/metadata.db", some "d/a.db"⟩ "d/a.db"
    ⟨80, 120, ["sword", "potion"]⟩ none
    ⟨["d"], [], [("d/a.db", ⟨1, none, [(0, "old")]⟩)], 0⟩ rfl).1

/-! ## C1 -/

/-- The catalog rows after `load_slot` stamps `last_played` for `slot_id`. -/
def stampRows (slot_id : String) (now : Nat) (rows : List SaveSlotMetadata) :
    List SaveSlotMetadata :=
  rows.map fun r => if r.id = slot_id then { r with last_played := now } else r

/-- Inversion of a successful `load_slot`: the catalog held the slot, and the
result installs the connection on the slot's (freshly migrated) file and
stamps its `last_played`. -/
theorem load_slot_ok_elim (mgr : SaveManager) (slot_id : String) (now : Nat)
    (w : World) (mgr' : SaveManager) (w' : World)
    (h : SaveManager.load_slot mgr slot_id now w = (.ok (), mgr', w')) :
    ∃ rows row,
      lookupA mgr.metadata_db_path w.metaDbs = some (some rows) ∧
      findRow slot_id rows = some row ∧
      mgr' = { mgr with active_connection := some row.file_path } ∧
      w' = { w with
        slotFiles := setA row.file_path (toLatest ((lookupA row.file_path w.slotFiles).getD SlotDb.fresh)) w.slotFiles,
        metaDbs := setA mgr.metadata_db_path (some (stampRows slot_id now rows)) w.metaDbs } := by
  unfold SaveManager.load_slot at h
  rw [close_active_connection_eq] at h
  simp only at h
  cases hcat : lookupA mgr.metadata_db_path w.metaDbs with
  | none =>
    simp only [hcat] at h
    exact Prod.noConfusion h fun h1 _ => Except.noConfusion h1
  | some mf =>
    cases mf with
    | none =>
      simp only [hcat] at h
      exact Prod.noConfusion h fun h1 _ => Except.noConfusion h1
    | some rows =>
      simp only [hcat] at h
      cases hfind : findRow slot_id rows with
      | none =>
        simp only [hfind] at h
        exact Prod.noConfusion h fun h1 _ => Except.noConfusion h1
      | some row =>
        simp only [hfind] at h
        refine ⟨rows, row, rfl, hfind, ?_, ?_⟩
        · exact (congrArg (fun t => t.2.1) h).symm
        · exact (congrArg (fun t => t.2.2) h).symm

/-- C1: round-trip of gameplay data.  After a successful `load_slot`, saving
any `PlayerData` (with no injected failure) succeeds, and a fresh read of
that slot's `player_stats` row and `inventory` table (ordered by position)
from the slot's file yields exactly the saved data: same health, same
experience, same inventory sequence with order and duplicates preserved. -/
theorem load_then_save_roundtrip (mgr : SaveManager) (slot_id : String)
    (now : Nat) (w : World) (mgr' : SaveManager) (w' : World)
    (data : PlayerData)
    (h : SaveManager.load_slot mgr slot_id now w = (.ok (), mgr', w')) :
    ∃ rows row,
      lookupA mgr.metadata_db_path w.metaDbs = some (some rows) ∧
      findRow slot_id rows = some row ∧
      mgr'.active_connection = some row.file_path ∧
      (SaveManager.save_player_data mgr' data none w').1 = .ok () ∧
      ∃ db, lookupA row.file_path (SaveManager.save_player_data mgr' data none w').2.2.slotFiles = some db ∧
        readPlayerData db = some data := by
  obtain ⟨rows, row, hcat, hfind, hmgr, hw⟩ :=
    load_slot_ok_elim mgr slot_id now w mgr' w' h
  have hlook : lookupA row.file_path w'.slotFiles =
      some (toLatest ((lookupA row.file_path w.slotFiles).getD SlotDb.fresh)) := by
    rw [hw]
    exact lookupA_setA_self ..
  have hver : (toLatest ((lookupA row.file_path w.slotFiles).getD SlotDb.fresh)).schemaVersion ≠ 0 :=
    toLatest_schemaVersion_ne_zero _
  have hsave : SaveManager.save_player_data mgr' data none w' =
      (.ok (), mgr', { w' with slotFiles := setA row.file_path (fullWrite data (toLatest ((lookupA row.file_path w.slotFiles).getD SlotDb.fresh))) w'.slotFiles }) := by
    unfold SaveManager.save_player_data
    rw [hmgr]
    simp only [hlook, Option.getD_some]
    rw [runSave_success _ _ hver]
    rfl
  refine ⟨rows, row, hcat, hfind, by rw [hmgr], ?_, ?_⟩
  · rw [hsave]
  · rw [hsave]
    refine ⟨fullWrite data (toLatest ((lookupA row.file_path w.slotFiles).getD SlotDb.fresh)), lookupA_setA_self .., ?_⟩
    unfold readPlayerData fullWrite
    simp only [Option.map_some]
    have hsorted : List.insertionSort posAsc (enumerateFrom 0 data.inventory) =
        enumerateFrom 0 data.inventory :=
      List.Sorted.insertionSort_eq (sorted_enumerateFrom 0 data.inventory)
    rw [hsorted, enumerateFrom_map_snd]
    rfl

/-- Concrete manager for the round-trip scenario. -/
def demoMgr : SaveManager :=
  ⟨"root/my_app/saves", "root/my_app/saves/metadata.db", none⟩

/-- Concrete world: one catalog row, no slot file yet. -/
def demoWorld : World :=
  ⟨["root/my_app/saves"],
   [("root/my_app/saves/metadata.db",
     some [⟨"slot-a", "Run 1", 5, "root/my_app/saves/slot-a.db"⟩])], [], 0⟩

/-- Concrete payload for the round-trip scenario. -/
def demoData : PlayerData := ⟨80, 120, ["sword", "potion"]⟩

/-- The concrete load of the round-trip scenario. -/
def demoLoad : Except SaveManagerError Unit × SaveManager × World :=
  SaveManager.load_slot demoMgr "slot-a" 9 demoWorld

/-- C1 witness: the concrete scenario of the spec — load slot "slot-a", save
health 80 / experience 120 / ["sword", "potion"], read back exactly that. -/
theorem load_then_save_roundtrip_witness :
    ∃ rows row,
      lookupA demoMgr.metadata_db_path demoWorld.metaDbs = some (some rows) ∧
      findRow "slot-a" rows = some row ∧
      demoLoad.2.1.active_connection = some row.file_path ∧
      (SaveManager.save_player_data demoLoad.2.1 demoData none demoLoad.2.2).1 = .ok () ∧
      ∃ db, lookupA row.file_path (SaveManager.save_player_data demoLoad.2.1 demoData none demoLoad.2.2).2.2.slotFiles = some db ∧
        readPlayerData db = some demoData :=
  load_then_save_roundtrip demoMgr "slot-a" 9 demoWorld demoLoad.2.1 demoLoad.2.2
    demoData rfl

/-! ## C6 -/

/-- Forward computation of a successful `load_slot`: when the catalog holds
the slot, the call succeeds, migrates the file, stamps `last_played := now`
and installs the connection. -/
theorem load_slot_found (mgr : SaveManager) (slot_id : String) (now : Nat)
    (w : World) (rows : List SaveSlotMetadata) (row : SaveSlotMetadata)
    (hcat : lookupA mgr.metadata_db_path w.metaDbs = some (some rows))
    (hfind : findRow slot_id rows = some row) :
    SaveManager.load_slot mgr slot_id now w =
      (.ok (), { mgr with active_connection := some row.file_path },
       { w with
         slotFiles := setA row.file_path (toLatest ((lookupA row.file_path w.slotFiles).getD SlotDb.fresh)) w.slotFiles,
         metaDbs := setA mgr.metadata_db_path (some (stampRows slot_id now rows)) w.metaDbs }) := by
  unfold SaveManager.load_slot
  rw [close_active_connection_eq]
  simp only [hcat, hfind]
  rfl

/-- In a `lpDesc`-sorted permutation of rows where some row carries the
strictly greatest timestamp `now` (and the matching id), the head is such a
row. -/
theorem sorted_desc_head (l rows' : List SaveSlotMetadata) (slot_id : String)
    (now : Nat) (hperm : l.Perm rows') (hsort : List.Sorted lpDesc l)
    (hmem : ∃ r ∈ rows', r.id = slot_id ∧ r.last_played = now)
    (hother : ∀ r ∈ rows', r.last_played < now ∨ (r.id = slot_id ∧ r.last_played = now)) :
    ∃ hd, l.head? = some hd ∧ hd.id = slot_id ∧ hd.last_played = now := by
  obtain ⟨X, hXmem, hXid, hXlp⟩ := hmem
  have hXl : X ∈ l := hperm.mem_iff.mpr hXmem
  cases l with
  | nil => cases hXl
  | cons hd t =>
    refine ⟨hd, rfl, ?_⟩
    have hhd_mem : hd ∈ rows' := hperm.mem_iff.mp (List.mem_cons_self hd t)
    have hhd_ge : now ≤ hd.last_played := by
      rcases List.mem_cons.mp hXl with hx | hx
      · rw [← hx, hXlp]
      · have hle : X.last_played ≤ hd.last_played := (List.sorted_cons.mp hsort).1 X hx
        rw [hXlp] at hle
        exact hle
    rcases hother hd hhd_mem with hlt | hok
    · omega
    · exact hok

/-- C6: a successful `load_slot` on slot X stamps X's `last_played` with the
current time before installing the connection, so that (whenever the clock
is ahead of every recorded timestamp, as `create_slot`'s and `load_slot`'s
common zero-padded UTC format guarantees for a later wall clock) a
subsequent `all_slots` places X first. -/
theorem load_slot_makes_most_recent (mgr : SaveManager) (slot_id : String)
    (now : Nat) (w : World) (rows : List SaveSlotMetadata)
    (row : SaveSlotMetadata)
    (hcat : lookupA mgr.metadata_db_path w.metaDbs = some (some rows))
    (hfind : findRow slot_id rows = some row)
    (hfresh : ∀ r ∈ rows, r.last_played < now) :
    (SaveManager.load_slot mgr slot_id now w).1 = .ok () ∧
    (SaveManager.load_slot mgr slot_id now w).2.1.active_connection = some row.file_path ∧
    ∃ rows',
      lookupA mgr.metadata_db_path (SaveManager.load_slot mgr slot_id now w).2.2.metaDbs = some (some rows') ∧
      (∃ r ∈ rows', r.id = slot_id ∧ r.last_played = now) ∧
      ∃ l, (SaveManager.all_slots (SaveManager.load_slot mgr slot_id now w).2.1 (SaveManager.load_slot mgr slot_id now w).2.2).1 = .ok l ∧
        ∃ hd, l.head? = some hd ∧ hd.id = slot_id ∧ hd.last_played = now := by
  rw [load_slot_found mgr slot_id now w rows row hcat hfind]
  obtain ⟨hrowmem, hrowid⟩ := findRow_some slot_id rows row hfind
  have hmem : ∃ r ∈ stampRows slot_id now rows, r.id = slot_id ∧ r.last_played = now := by
    refine ⟨{ row with last_played := now }, ?_, hrowid, rfl⟩
    unfold stampRows
    refine List.mem_map.mpr ⟨row, hrowmem, ?_⟩
    simp [hrowid]
  have hother : ∀ r ∈ stampRows slot_id now rows,
      r.last_played < now ∨ (r.id = slot_id ∧ r.last_played = now) := by
    intro r' hr'
    unfold stampRows at hr'
    obtain ⟨r, hr, hr'eq⟩ := List.mem_map.mp hr'
    by_cases hid : r.id = slot_id
    · right
      have hre : r' = { r with last_played := now } := by
        rw [← hr'eq]; simp [hid]
      rw [hre]
      exact ⟨hid, rfl⟩
    · left
      have hre : r' = r := by
        rw [← hr'eq]; simp [hid]
      rw [hre]
      exact hfresh r hr
  refine ⟨rfl, rfl, stampRows slot_id now rows, lookupA_setA_self .., hmem, ?_⟩
  have hall : SaveManager.all_slots
      { mgr with active_connection := some row.file_path }
      { w with
        slotFiles := setA row.file_path (toLatest ((lookupA row.file_path w.slotFiles).getD SlotDb.fresh)) w.slotFiles,
        metaDbs := setA mgr.metadata_db_path (some (stampRows slot_id now rows)) w.metaDbs } =
      (.ok (sortSlotsDesc (stampRows slot_id now rows)), { w with
        slotFiles := setA row.file_path (toLatest ((lookupA row.file_path w.slotFiles).getD SlotDb.fresh)) w.slotFiles,
        metaDbs := setA mgr.metadata_db_path (some (stampRows slot_id now rows)) w.metaDbs }) := by
    unfold SaveManager.all_slots
    simp only [lookupA_setA_self]
  refine ⟨sortSlotsDesc (stampRows slot_id now rows), by rw [hall], ?_⟩
  exact sorted_desc_head _ _ slot_id now
    (List.perm_insertionSort lpDesc (stampRows slot_id now rows))
    (List.sorted_insertionSort lpDesc (stampRows slot_id now rows)) hmem hother

/-- C6 witness: loading the older slot "a" at a later time makes it the head
of `all_slots`. -/
theorem load_slot_makes_most_recent_witness :
    ((SaveManager.load_slot ⟨"d", "d/metadata.db", none⟩ "a" 12
        ⟨["d"], [("d/metadata.db",
          some [⟨"a", "Run 1", 5, "d/a.db"⟩, ⟨"b", "Run 2", 9, "d/b.db"⟩])], [], 0⟩).1 = .ok ()) ∧
    ((SaveManager.load_slot ⟨"d", "d/metadata.db", none⟩ "a" 12
        ⟨["d"], [("d/metadata.db",
          some [⟨"a", "Run 1", 5, "d/a.db"⟩, ⟨"b", "Run 2", 9, "d/b.db"⟩])], [], 0⟩).2.1.active_connection = some "d/a.db") := by
  have h := load_slot_makes_most_recent ⟨"d", "d/metadata.db", none⟩ "a" 12
    ⟨["d"], [("d/metadata.db",
      some [⟨"a", "Run 1", 5, "d/a.db"⟩, ⟨"b", "Run 2", 9, "d/b.db"⟩])], [], 0⟩
    [⟨"a", "Run 1", 5, "d/a.db"⟩, ⟨"b", "Run 2", 9, "d/b.db"⟩]
    ⟨"a", "Run 1", 5, "d/a.db"⟩ (by decide) (by decide) (by decide)
  exact ⟨h.1, h.2.1⟩

/-! ## C7 -/

/-- A sequence of `create_slot` calls, each with a display name and a
timestamp. -/
def createSlots (gen : Nat → String) (mgr : SaveManager) :
    List (String × Nat) → World →
    List (Except SaveManagerError SaveSlotMetadata) × World
  | [], w => ([], w)
  | e :: rest, w =>
    match mgr.create_slot gen e.1 e.2 w with
    | (r, w') =>
      match createSlots gen mgr rest w' with
      | (rs, w'') => (r :: rs, w'')

/-- The identifiers drawn from the generator for `n` consecutive calls
starting at counter `c`. -/
def genIds (gen : Nat → String) (c : Nat) : Nat → List String
  | 0 => []
  | n + 1 => gen c :: genIds gen (c + 1) n

theorem mem_genIds (gen : Nat → String) :
    ∀ (n c : Nat) (x : String), x ∈ genIds gen c n → ∃ k, c ≤ k ∧ x = gen k := by
  intro n
  induction n with
  | zero => intro c x hx; cases hx
  | succ m ih =>
    intro c x hx
    rcases List.mem_cons.mp hx with hx | hx
    · exact ⟨c, Nat.le_refl c, hx⟩
    · obtain ⟨k, hk, hxk⟩ := ih (c + 1) x hx
      exact ⟨k, Nat.le_of_succ_le hk, hxk⟩

theorem nodup_genIds (gen : Nat → String) (hinj : Function.Injective gen) :
    ∀ (n c : Nat), (genIds gen c n).Nodup := by
  intro n
  induction n with
  | zero => intro c; exact List.nodup_nil
  | succ m ih =>
    intro c
    refine List.nodup_cons.mpr ⟨?_, ih (c + 1)⟩
    intro hmem
    obtain ⟨k, hk, hgk⟩ := mem_genIds gen m (c + 1) (gen c) hmem
    have : c = k := hinj hgk
    omega

/-- The metadata record produced by a `create_slot` call at generator
counter `c`. -/
def newRow (gen : Nat → String) (mgr : SaveManager) (c : Nat)
    (e : String × Nat) : SaveSlotMetadata :=
  ⟨gen c, e.1, e.2, mgr.saves_dir ++ "/" ++ gen c ++ ".db"⟩

/-- The world after a successful `create_slot` call. -/
def afterCreate (gen : Nat → String) (mgr : SaveManager) (e : String × Nat)
    (w : World) (rows : List SaveSlotMetadata) : World :=
  { w with uuidCounter := w.uuidCounter + 1,
           metaDbs := setA mgr.metadata_db_path (some (rows ++ [newRow gen mgr w.uuidCounter e])) w.metaDbs }

/-- A `create_slot` call succeeds and appends one row when the catalog exists
and the drawn identifier is not taken. -/
theorem create_slot_success (gen : Nat → String) (mgr : SaveManager)
    (e : String × Nat) (w : World) (rows : List SaveSlotMetadata)
    (hcat : lookupA mgr.metadata_db_path w.metaDbs = some (some rows))
    (hnew : hasRowId (gen w.uuidCounter) rows = false) :
    mgr.create_slot gen e.1 e.2 w =
      (.ok (newRow gen mgr w.uuidCounter e), afterCreate gen mgr e w rows) := by
  unfold SaveManager.create_slot
  simp only [hcat, hnew]
  rfl

/-- Unfolded run of `createSlots` when the catalog exists and none of the
generator's upcoming identifiers collides with a catalog row: every call
succeeds, appends its row, and never touches a slot data file. -/
theorem createSlots_spec (gen : Nat → String) (hinj : Function.Injective gen)
    (mgr : SaveManager) :
    ∀ (entries : List (String × Nat)) (w : World) (rows : List SaveSlotMetadata),
    lookupA mgr.metadata_db_path w.metaDbs = some (some rows) →
    (∀ r ∈ rows, ∀ n, w.uuidCounter ≤ n → r.id ≠ gen n) →
    ∃ ms : List SaveSlotMetadata,
      createSlots gen mgr entries w =
        (ms.map Except.ok,
         { w with uuidCounter := w.uuidCounter + entries.length,
                  metaDbs := setA mgr.metadata_db_path (some (rows ++ ms)) w.metaDbs }) ∧
      ms.map SaveSlotMetadata.id = genIds gen w.uuidCounter entries.length ∧
      ms.map SaveSlotMetadata.name = entries.map Prod.fst ∧
      ∀ m ∈ ms, m.file_path = mgr.saves_dir ++ "/" ++ m.id ++ ".db" := by
  intro entries
  induction entries with
  | nil =>
    intro w rows hcat hfresh
    refine ⟨[], ?_, rfl, rfl, by intro m hm; cases hm⟩
    have hset : setA mgr.metadata_db_path (some rows) w.metaDbs = w.metaDbs :=
      setA_eq_of_lookupA mgr.metadata_db_path (some rows) w.metaDbs hcat
    simp [createSlots, hset]
  | cons e rest ih =>
    intro w rows hcat hfresh
    have hnew : hasRowId (gen w.uuidCounter) rows = false :=
      hasRowId_eq_false (gen w.uuidCounter) rows
        (fun r hr => hfresh r hr w.uuidCounter (Nat.le_refl _))
    have hstep := create_slot_success gen mgr e w rows hcat hnew
    have hcat2 : lookupA mgr.metadata_db_path (afterCreate gen mgr e w rows).metaDbs =
        some (some (rows ++ [newRow gen mgr w.uuidCounter e])) :=
      lookupA_setA_self ..
    have hfresh2 : ∀ r ∈ rows ++ [newRow gen mgr w.uuidCounter e],
        ∀ n, (afterCreate gen mgr e w rows).uuidCounter ≤ n → r.id ≠ gen n := by
      intro r hr n hn
      rcases List.mem_append.mp hr with hr | hr
      · refine hfresh r hr n ?_
        have : (afterCreate gen mgr e w rows).uuidCounter = w.uuidCounter + 1 := rfl
        omega
      · rcases List.mem_singleton.mp hr with rfl
        intro hcontra
        have hcn : w.uuidCounter = n := hinj hcontra
        have : (afterCreate gen mgr e w rows).uuidCounter = w.uuidCounter + 1 := rfl
        omega
    obtain ⟨ms, heq, hids, hnames, hpaths⟩ := ih _ _ hcat2 hfresh2
    refine ⟨newRow gen mgr w.uuidCounter e :: ms, ?_, ?_, ?_, ?_⟩
    · show createSlots gen mgr (e :: rest) w = _
      unfold createSlots
      simp only [hstep, heq]
      have harr : (rows ++ [newRow gen mgr w.uuidCounter e]) ++ ms =
          rows ++ newRow gen mgr w.uuidCounter e :: ms := by
        simp
      have hcnt : w.uuidCounter + 1 + rest.length = w.uuidCounter + (rest.length + 1) := by
        omega
      simp only [List.map_cons, afterCreate, setA_setA, harr, hcnt, List.length_cons]
    · simp only [List.map_cons, hids]
      rfl
    · simp only [List.map_cons, hnames]
      rfl
    · intro m hm
      rcases List.mem_cons.mp hm with hm | hm
      · rw [hm]
        rfl
      · exact hpaths m hm

/-- C7: every `create_slot` in a sequence of calls succeeds with a fresh,
pairwise-distinct identifier, derives the slot file path as
`saves_dir/{id}.db`, inserts exactly one catalog row with the requested
display name — without creating the slot's own data file — and `all_slots`
afterwards returns exactly one record per call. -/
theorem create_slot_sequence (gen : Nat → String) (mgr : SaveManager)
    (entries : List (String × Nat)) (w : World) (rows : List SaveSlotMetadata)
    (hinj : Function.Injective gen)
    (hcat : lookupA mgr.metadata_db_path w.metaDbs = some (some rows))
    (hfresh : ∀ r ∈ rows, ∀ n, w.uuidCounter ≤ n → r.id ≠ gen n) :
    ∃ ms : List SaveSlotMetadata,
      (createSlots gen mgr entries w).1 = ms.map Except.ok ∧
      (ms.map SaveSlotMetadata.id).Nodup ∧
      ms.map SaveSlotMetadata.name = entries.map Prod.fst ∧
      (∀ m ∈ ms, m.file_path = mgr.saves_dir ++ "/" ++ m.id ++ ".db") ∧
      (createSlots gen mgr entries w).2.slotFiles = w.slotFiles ∧
      lookupA mgr.metadata_db_path (createSlots gen mgr entries w).2.metaDbs = some (some (rows ++ ms)) ∧
      ∃ l, (SaveManager.all_slots mgr (createSlots gen mgr entries w).2).1 = .ok l ∧
        l.Perm (rows ++ ms) := by
  obtain ⟨ms, heq, hids, hnames, hpaths⟩ :=
    createSlots_spec gen hinj mgr entries w rows hcat hfresh
  have hnodup : (ms.map SaveSlotMetadata.id).Nodup := by
    rw [hids]
    exact nodup_genIds gen hinj entries.length w.uuidCounter
  have hlook : lookupA mgr.metadata_db_path (createSlots gen mgr entries w).2.metaDbs =
      some (some (rows ++ ms)) := by
    rw [heq]
    exact lookupA_setA_self ..
  refine ⟨ms, by rw [heq], hnodup, hnames, hpaths, by rw [heq], hlook, ?_⟩
  have hall : (SaveManager.all_slots mgr (createSlots gen mgr entries w).2).1 =
      .ok (sortSlotsDesc (rows ++ ms)) := by
    unfold SaveManager.all_slots
    simp only [hlook]
  exact ⟨sortSlotsDesc (rows ++ ms), hall, List.perm_insertionSort ..⟩

/-- An injective stand-in for the UUID v4 generator. -/
def demoGen (n : Nat) : String := String.mk (List.replicate (n + 1) 'u')

theorem demoGen_injective : Function.Injective demoGen := by
  intro a b h
  have hd : (demoGen a).data = (demoGen b).data := by rw [h]
  simp only [demoGen] at hd
  have hlen := congrArg List.length hd
  simp only [List.length_replicate] at hlen
  omega

/-- C7 witness: two calls on an empty catalog yield two distinct ids, two
rows with the requested names, and untouched slot files. -/
theorem create_slot_sequence_witness :
    ∃ ms : List SaveSlotMetadata,
      (createSlots demoGen ⟨"d", "d/metadata.db", none⟩
        [("Run 1", 1), ("Run 2", 2)] ⟨["d"], [("d/metadata.db", some [])], [], 0⟩).1 = ms.map Except.ok ∧
      (ms.map SaveSlotMetadata.id).Nodup ∧
      ms.map SaveSlotMetadata.name = [("Run 1", 1), ("Run 2", 2)].map Prod.fst ∧
      (∀ m ∈ ms, m.file_path = "d" ++ "/" ++ m.id ++ ".db") ∧
      (createSlots demoGen ⟨"d", "d/metadata.db", none⟩
        [("Run 1", 1), ("Run 2", 2)] ⟨["d"], [("d/metadata.db", some [])], [], 0⟩).2.slotFiles = [] ∧
      lookupA "d/metadata.db" (createSlots demoGen ⟨"d", "d/metadata.db", none⟩
        [("Run 1", 1), ("Run 2", 2)] ⟨["d"], [("d/metadata.db", some [])], [], 0⟩).2.metaDbs = some (some ([] ++ ms)) ∧
      ∃ l, (SaveManager.all_slots ⟨"d", "d/metadata.db", none⟩
          (createSlots demoGen ⟨"d", "d/metadata.db", none⟩
            [("Run 1", 1), ("Run 2", 2)] ⟨["d"], [("d/metadata.db", some [])], [], 0⟩).2).1 = .ok l ∧
        l.Perm ([] ++ ms) :=
  create_slot_sequence demoGen ⟨"d", "d/metadata.db", none⟩
    [("Run 1", 1), ("Run 2", 2)] ⟨["d"], [("d/metadata.db", some [])], [], 0⟩ []
    demoGen_injective rfl (by simp)

/-! ## C8 -/

theorem mem_createDirAll (d : String) (dirs : List String) :
    d ∈ createDirAll d dirs := by
  unfold createDirAll
  split
  · assumption
  · exact List.mem_cons_self d dirs

theorem createDirAll_idem (d : String) (dirs : List String) :
    createDirAll d (createDirAll d dirs) = createDirAll d dirs := by
  show (if d ∈ createDirAll d dirs then createDirAll d dirs else d :: createDirAll d dirs) = createDirAll d dirs
  rw [if_pos (mem_createDirAll d dirs)]

theorem initialize_metadata_db_dirs (p : String) (w : World) :
    (initialize_metadata_db p w).dirs = w.dirs := by
  unfold initialize_metadata_db
  split <;> rfl

theorem initialize_metadata_db_slotFiles (p : String) (w : World) :
    (initialize_metadata_db p w).slotFiles = w.slotFiles := by
  unfold initialize_metadata_db
  split <;> rfl

theorem world_update_dirs_self (w : World) : { w with dirs := w.dirs } = w := rfl

theorem initializeManager_unfold (base : String) (w : World) :
    SaveManager.initializeManager base w =
      (.ok ⟨savesDirOf base, metadataPathOf base, none⟩,
       initialize_metadata_db (metadataPathOf base) { w with dirs := createDirAll (savesDirOf base) w.dirs }) := rfl

theorem initialize_metadata_db_idem (p : String) (w : World) :
    initialize_metadata_db p (initialize_metadata_db p w) = initialize_metadata_db p w := by
  rcases h : lookupA p w.metaDbs with - | mf
  · simp [initialize_metadata_db, h, lookupA_setA_self]
  · cases mf with
    | none => simp [initialize_metadata_db, h, lookupA_setA_self]
    | some rows => simp [initialize_metadata_db, h]

/-- C8: initialization is idempotent.  `initialize` always succeeds on a
writable root, a second call with the same base path returns the same
manager and changes nothing, existing catalog rows are neither duplicated
nor altered, and slot data files are untouched. -/
theorem initializeManager_idempotent (base : String) (w : World) :
    ∃ m w1, SaveManager.initializeManager base w = (.ok m, w1) ∧
      SaveManager.initializeManager base w1 = (.ok m, w1) ∧
      w1.slotFiles = w.slotFiles ∧
      ∀ rows, lookupA (metadataPathOf base) w.metaDbs = some (some rows) →
        lookupA (metadataPathOf base) w1.metaDbs = some (some rows) := by
  refine ⟨⟨savesDirOf base, metadataPathOf base, none⟩,
    initialize_metadata_db (metadataPathOf base) { w with dirs := createDirAll (savesDirOf base) w.dirs },
    rfl, ?_, ?_, ?_⟩
  · rw [initializeManager_unfold]
    have h5 : createDirAll (savesDirOf base) (initialize_metadata_db (metadataPathOf base) { w with dirs := createDirAll (savesDirOf base) w.dirs }).dirs = (initialize_metadata_db (metadataPathOf base) { w with dirs := createDirAll (savesDirOf base) w.dirs }).dirs := by
      rw [initialize_metadata_db_dirs]
      exact createDirAll_idem ..
    rw [h5, world_update_dirs_self, initialize_metadata_db_idem]
  · rw [initialize_metadata_db_slotFiles]
  · intro rows hrows
    have hmeta : ({ w with dirs := createDirAll (savesDirOf base) w.dirs } : World).metaDbs = w.metaDbs := rfl
    unfold initialize_metadata_db
    rw [hmeta, hrows]
    exact hrows

/-- C8 witness: re-initializing a root whose catalog already has a row keeps
the row and the slot files. -/
theorem initializeManager_idempotent_witness :
    ∃ m w1,
      SaveManager.initializeManager "root"
        ⟨[], [("root/my_app/saves/metadata.db", some [⟨"a", "Run 1", 5, "root/my_app/saves/a.db"⟩])], [("root/my_app/saves/a.db", ⟨1, none, []⟩)], 0⟩ = (.ok m, w1) ∧
      SaveManager.initializeManager "root" w1 = (.ok m, w1) ∧
      w1.slotFiles = [("root/my_app/saves/a.db", ⟨1, none, []⟩)] ∧
      lookupA (metadataPathOf "root") w1.metaDbs = some (some [⟨"a", "Run 1", 5, "root/my_app/saves/a.db"⟩]) := by
  obtain ⟨m, w1, h1, h2, h3, h4⟩ := initializeManager_idempotent "root"
    ⟨[], [("root/my_app/saves/metadata.db", some [⟨"a", "Run 1", 5, "root/my_app/saves/a.db"⟩])], [("root/my_app/saves/a.db", ⟨1, none, []⟩)], 0⟩
  exact ⟨m, w1, h1, h2, h3, h4 [⟨"a", "Run 1", 5, "root/my_app/saves/a.db"⟩] (by decide)⟩

/-! ## C9 (corrected) -/

/-- C9 counterexample: `set_application_documents_directory` uses
`write().expect(..)`, so with a poisoned `APP_DOCUMENTS_DIR` lock the call
panics instead of returning an error value — the claim that every exposed
function returns a typed failure and never panics is false. -/
theorem set_app_documents_dir_panics_on_poison :
    (set_application_documents_directory "docs" ⟨none, .poisoned, none, .healthy⟩).1 =
      Outcome.panicked := rfl

/-- C9 (amended): the five registry operations always return a value — never
panicking, and surfacing a poisoned `SAVE_MANAGER` lock or an uninitialized
manager as error strings — while the two application-documents-directory
functions return normally exactly when the `APP_DOCUMENTS_DIR` lock is
healthy and panic exactly when it is poisoned. -/
theorem boundary_error_behaviour (base name slot_id dir : String)
    (gen : Nat → String) (now : Nat) (data : PlayerData) (failAt : Option Nat)
    (a : Option String) (al : LockState) (sm : Option SaveManager)
    (g : Globals) (w : World) :
    (∃ v, (init_system base g w).1 = .ret v) ∧
    (∃ v, (create_new_slot name gen now g w).1 = .ret v) ∧
    (∃ v, (get_all_slots g w).1 = .ret v) ∧
    (∃ v, (load_slot slot_id now g w).1 = .ret v) ∧
    (∃ v, (save_player_data data failAt g w).1 = .ret v) ∧
    ((init_system base ⟨a, al, sm, .poisoned⟩ w).1 = .ret (.error "SaveManager lock poisoned")) ∧
    ((create_new_slot name gen now ⟨a, al, sm, .poisoned⟩ w).1 = .ret (.error "SaveManager lock poisoned")) ∧
    ((get_all_slots ⟨a, al, sm, .poisoned⟩ w).1 = .ret (.error "SaveManager lock poisoned")) ∧
    ((load_slot slot_id now ⟨a, al, sm, .poisoned⟩ w).1 = .ret (.error "SaveManager lock poisoned")) ∧
    ((save_player_data data failAt ⟨a, al, sm, .poisoned⟩ w).1 = .ret (.error "SaveManager lock poisoned")) ∧
    ((create_new_slot name gen now ⟨a, al, none, .healthy⟩ w).1 = .ret (.error "SaveManager has not been initialized")) ∧
    ((set_application_documents_directory dir g).1 =
      match g.appDirLock with
      | .poisoned => Outcome.panicked
      | .healthy => Outcome.ret ()) ∧
    ((debug_application_documents_directory g).1 =
      match g.appDirLock with
      | .poisoned => Outcome.panicked
      | .healthy => Outcome.ret g.appDocumentsDir) := by
  have h1 : ∃ v, (init_system base g w).1 = .ret v := by
    unfold init_system SaveManager.initializeManager
    cases g.saveManagerLock
    · exact ⟨_, rfl⟩
    · exact ⟨_, rfl⟩
  have h2 : ∃ v, (create_new_slot name gen now g w).1 = .ret v := by
    unfold create_new_slot
    cases g.saveManagerLock
    · cases g.saveManager
      · exact ⟨_, rfl⟩
      · exact ⟨_, rfl⟩
    · exact ⟨_, rfl⟩
  have h3 : ∃ v, (get_all_slots g w).1 = .ret v := by
    unfold get_all_slots
    cases g.saveManagerLock
    · cases g.saveManager
      · exact ⟨_, rfl⟩
      · exact ⟨_, rfl⟩
    · exact ⟨_, rfl⟩
  have h4 : ∃ v, (load_slot slot_id now g w).1 = .ret v := by
    unfold load_slot
    cases g.saveManagerLock
    · cases g.saveManager
      · exact ⟨_, rfl⟩
      · exact ⟨_, rfl⟩
    · exact ⟨_, rfl⟩
  have h5 : ∃ v, (save_player_data data failAt g w).1 = .ret v := by
    unfold save_player_data
    cases g.saveManagerLock
    · cases g.saveManager
      · exact ⟨_, rfl⟩
      · exact ⟨_, rfl⟩
    · exact ⟨_, rfl⟩
  have h12 : (set_application_documents_directory dir g).1 =
      match g.appDirLock with
      | .poisoned => Outcome.panicked
      | .healthy => Outcome.ret () := by
    unfold set_application_documents_directory
    cases g.appDirLock <;> rfl
  have h13 : (debug_application_documents_directory g).1 =
      match g.appDirLock with
      | .poisoned => Outcome.panicked
      | .healthy => Outcome.ret g.appDocumentsDir := by
    unfold debug_application_documents_directory
    cases g.appDirLock <;> rfl
  exact ⟨h1, h2, h3, h4, h5, rfl, rfl, rfl, rfl, rfl, rfl, h12, h13⟩

/-! ## C10 -/

/-- C10: the application-documents-directory cell is independent of the Save
Manager.  `debug_application_documents_directory` reads exactly the cell
(`none` before any set, the most recently set value afterwards), neither it
nor `set_application_documents_directory` touches the manager registry, and
the five registry operations neither read nor write the cell — in
particular `init_system` derives the storage root from its `base_path`
argument alone. -/
theorem app_documents_dir_independent (dir base name slot_id : String)
    (gen : Nat → String) (now : Nat) (data : PlayerData) (failAt : Option Nat)
    (a a' : Option String) (al : LockState) (sm : Option SaveManager)
    (ml : LockState) (g : Globals) (w : World) :
    ((set_application_documents_directory dir g).2.saveManager = g.saveManager ∧
     (set_application_documents_directory dir g).2.saveManagerLock = g.saveManagerLock) ∧
    (debug_application_documents_directory g).2 = g ∧
    (debug_application_documents_directory ⟨none, .healthy, sm, ml⟩).1 = .ret none ∧
    (set_application_documents_directory dir ⟨a, .healthy, sm, ml⟩).2.appDocumentsDir = some dir ∧
    (debug_application_documents_directory (set_application_documents_directory dir ⟨a, .healthy, sm, ml⟩).2).1 = .ret (some dir) ∧
    ((init_system base g w).2.1.appDocumentsDir = g.appDocumentsDir ∧
     (init_system base g w).2.1.appDirLock = g.appDirLock) ∧
    (create_new_slot name gen now g w).2.1 = g ∧
    (get_all_slots g w).2.1 = g ∧
    ((load_slot slot_id now g w).2.1.appDocumentsDir = g.appDocumentsDir ∧
     (load_slot slot_id now g w).2.1.appDirLock = g.appDirLock) ∧
    ((save_player_data data failAt g w).2.1.appDocumentsDir = g.appDocumentsDir ∧
     (save_player_data data failAt g w).2.1.appDirLock = g.appDirLock) ∧
    ((init_system base ⟨a, al, sm, ml⟩ w).1 = (init_system base ⟨a', al, sm, ml⟩ w).1 ∧
     (init_system base ⟨a, al, sm, ml⟩ w).2.2 = (init_system base ⟨a', al, sm, ml⟩ w).2.2 ∧
     (init_system base ⟨a, al, sm, ml⟩ w).2.1.saveManager = (init_system base ⟨a', al, sm, ml⟩ w).2.1.saveManager) ∧
    ((create_new_slot name gen now ⟨a, al, sm, ml⟩ w).1 = (create_new_slot name gen now ⟨a', al, sm, ml⟩ w).1 ∧
     (create_new_slot name gen now ⟨a, al, sm, ml⟩ w).2.2 = (create_new_slot name gen now ⟨a', al, sm, ml⟩ w).2.2 ∧
     (create_new_slot name gen now ⟨a, al, sm, ml⟩ w).2.1.saveManager = (create_new_slot name gen now ⟨a', al, sm, ml⟩ w).2.1.saveManager) ∧
    ((get_all_slots ⟨a, al, sm, ml⟩ w).1 = (get_all_slots ⟨a', al, sm, ml⟩ w).1 ∧
     (get_all_slots ⟨a, al, sm, ml⟩ w).2.2 = (get_all_slots ⟨a', al, sm, ml⟩ w).2.2 ∧
     (get_all_slots ⟨a, al, sm, ml⟩ w).2.1.saveManager = (get_all_slots ⟨a', al, sm, ml⟩ w).2.1.saveManager) ∧
    ((load_slot slot_id now ⟨a, al, sm, ml⟩ w).1 = (load_slot slot_id now ⟨a', al, sm, ml⟩ w).1 ∧
     (load_slot slot_id now ⟨a, al, sm, ml⟩ w).2.2 = (load_slot slot_id now ⟨a', al, sm, ml⟩ w).2.2 ∧
     (load_slot slot_id now ⟨a, al, sm, ml⟩ w).2.1.saveManager = (load_slot slot_id now ⟨a', al, sm, ml⟩ w).2.1.saveManager) ∧
    ((save_player_data data failAt ⟨a, al, sm, ml⟩ w).1 = (save_player_data data failAt ⟨a', al, sm, ml⟩ w).1 ∧
     (save_player_data data failAt ⟨a, al, sm, ml⟩ w).2.2 = (save_player_data data failAt ⟨a', al, sm, ml⟩ w).2.2 ∧
     (save_player_data data failAt ⟨a, al, sm, ml⟩ w).2.1.saveManager = (save_player_data data failAt ⟨a', al, sm, ml⟩ w).2.1.saveManager) ∧
    (init_system base ⟨a, al, sm, .healthy⟩ w).2.1.saveManager = some ⟨savesDirOf base, metadataPathOf base, none⟩ := by
  obtain ⟨ga, gal, gsm, gml⟩ := g
  refine ⟨⟨?_, ?_⟩, ?_, rfl, rfl, rfl, ⟨?_, ?_⟩, ?_, ?_, ⟨?_, ?_⟩, ⟨?_, ?_⟩, ?_, ?_, ?_, ?_, ?_, rfl⟩
  · cases gal <;> rfl
  · cases gal <;> rfl
  · cases gal <;> rfl
  · unfold init_system SaveManager.initializeManager
    cases gml <;> rfl
  · unfold init_system SaveManager.initializeManager
    cases gml <;> rfl
  · unfold create_new_slot
    cases gml
    · cases gsm <;> rfl
    · rfl
  · unfold get_all_slots
    cases gml
    · cases gsm <;> rfl
    · rfl
  · unfold load_slot
    cases gml
    · cases gsm <;> rfl
    · rfl
  · unfold load_slot
    cases gml
    · cases gsm <;> rfl
    · rfl
  · unfold save_player_data
    cases gml
    · cases gsm <;> rfl
    · rfl
  · unfold save_player_data
    cases gml
    · cases gsm <;> rfl
    · rfl
  · cases ml <;> exact ⟨rfl, rfl, rfl⟩
  · cases ml
    · cases sm <;> exact ⟨rfl, rfl, rfl⟩
    · exact ⟨rfl, rfl, rfl⟩
  · cases ml
    · cases sm <;> exact ⟨rfl, rfl, rfl⟩
    · exact ⟨rfl, rfl, rfl⟩
  · cases ml
    · cases sm <;> exact ⟨rfl, rfl, rfl⟩
    · exact ⟨rfl, rfl, rfl⟩
  · cases ml
    · cases sm <;> exact ⟨rfl, rfl, rfl⟩
    · exact ⟨rfl, rfl, rfl⟩

end SaveCore
